import Mathlib

/-!
Shallow embedding of the `ip_tracking` Django application (rate-limit
middleware, IP-tracking/block middleware, suspicious-activity tasks and
their data model) together with proofs about the spec's claims.

Timestamps are modelled as `Int` seconds (the code uses `int(time.time())`
for the rate limiter and `timezone.now()` elsewhere; one day is 86400
seconds).  Stores (the Django cache, the `SuspiciousIP` table, the
`BlockedIP` table, the `RequestLog` table) are modelled as explicit lists
threaded through the functions.
-/

namespace IPTrack

/-! ### Sliding-window rate limiter (`rate_limit_middleware.py`) -/

/-- Embedding of the pruning step of `RateLimitMiddleware.check_rate_limit`:
`[req_time for req_time in requests_data if req_time > window_start]`
with `window_start = now - self.window_size`. -/
def pruneWindow (stored : List Int) (now w : Int) : List Int :=
  stored.filter (fun t => decide (now - w < t))

/-- Outcome of one `check_rate_limit` call, seen at the cache boundary:
whether the request is allowed, and — when a `cache.set` happens — the
persisted timestamp sequence together with the ttl passed to `cache.set`. -/
structure RLCheck where
  allowed : Bool
  persist : Option (List Int × Int)
  deriving DecidableEq, Repr

/-- Embedding of `RateLimitMiddleware.check_rate_limit` (happy path, no
backend error).  `cached` is the result of `cache.get(cache_key, [])`
(`none` when the key is absent); `self.window_size` is `w`.  On reject the
cache is not written; on admit the pruned-and-appended list is stored with
ttl `self.window_size + 10`. -/
def checkRateLimitFull (cached : Option (List Int)) (now : Int) (limit : Nat) (w : Int) :
    RLCheck :=
  let stored := cached.getD []
  let pruned := pruneWindow stored now w
  if limit ≤ pruned.length then ⟨false, none⟩
  else ⟨true, some (pruned ++ [now], w + 10)⟩

/-- State-transition view of `check_rate_limit` for a single key: it
returns the allow/reject decision and the cache contents after the call
(unchanged on reject, pruned-and-appended on admit). -/
def checkRateLimit (stored : List Int) (now : Int) (limit : Nat) (w : Int) :
    Bool × List Int :=
  let pruned := pruneWindow stored now w
  if limit ≤ pruned.length then (false, stored)
  else (true, pruned ++ [now])

/-- Spec-side restatement of the rate-limit algorithm, written from the
spec's words: "drop all entries with `timestamp <= now - window_size`; if
the remaining count `>= limit`, reject (return false) without mutating
stored state; otherwise append `now`, persist the pruned+appended sequence
with an expiry of `window_size + grace`".  The grace is a parameter here;
the spec requires `grace >= 10`. -/
def specCheckRateLimit (cached : Option (List Int)) (now : Int) (limit : Nat)
    (w grace : Int) : RLCheck :=
  let stored := cached.getD []
  let pruned := stored.filter (fun t => !decide (t ≤ now - w))
  if limit ≤ pruned.length then ⟨false, none⟩
  else ⟨true, some (pruned ++ [now], w + grace)⟩

/-- One request against the rate limiter for a fixed key: the accumulator
carries (cache contents for the key, list of admitted request timestamps). -/
def rlStep (limit : Nat) (w : Int) (acc : List Int × List Int) (now : Int) :
    List Int × List Int :=
  let c := checkRateLimit acc.1 now limit w
  if c.1 then (c.2, acc.2 ++ [now]) else (c.2, acc.2)

/-- A sequence of requests for one key against an initially empty window. -/
def runRateLimiter (limit : Nat) (w : Int) (times : List Int) : List Int × List Int :=
  times.foldl (rlStep limit w) ([], [])

/-- Membership of a timestamp in the trailing half-open window `(T - w, T]`. -/
def inWindow (w T t : Int) : Bool :=
  decide (T - w < t) && decide (t ≤ T)

/-- Embedding of `check_rate_limit` including its `try/except` error
handling: `fetched` is the outcome of `cache.get`, `setOutcome` the outcome
of `cache.set`.  The second component of the result records whether the
error branch (`logger.error` + fail-open) ran. -/
def checkRateLimitSafe (fetched : Except String (Option (List Int)))
    (setOutcome : Except String Unit) (now : Int) (limit : Nat) (w : Int) :
    Bool × Bool :=
  match fetched with
  | .error _ => (true, true)
  | .ok cached =>
    let stored := cached.getD []
    let pruned := pruneWindow stored now w
    if limit ≤ pruned.length then (false, false)
    else
      match setOutcome with
      | .error _ => (true, true)
      | .ok _ => (true, false)

/-- Python's `str.startswith`, as character-wise prefix test (structural so
that concrete instances evaluate). -/
def strStartsWith (s p : String) : Bool :=
  p.data.isPrefixOf s.data

/-- Python's `s.split(',')[0]`: the characters before the first comma, or
all of `s` when it has none. -/
def firstSplitComma (s : String) : String :=
  String.mk (s.data.takeWhile (fun c => !(c = ',')))

/-- Embedding of `RateLimitMiddleware.should_skip_rate_limit`. -/
def shouldSkipRateLimit (path : String) : Bool :=
  ["/health/", "/static/", "/media/", "/admin/jsi18n/"].any
    (fun s => strStartsWith path s)

/-! ### IP extraction and block-list gate (`middleware.py`) -/

/-- Embedding of `IPTrackingMiddleware.get_client_ip`: use the first
comma-separated entry of `HTTP_X_FORWARDED_FOR` when that header is present
and truthy (a present-but-empty header is falsy in Python), else
`REMOTE_ADDR`. -/
def getClientIPTrk (xff : Option String) (remote : String) : String :=
  match xff with
  | some s => if s = "" then remote else firstSplitComma s
  | none => remote

/-- Embedding of `RateLimitMiddleware.get_client_ip` (textually identical
code in `rate_limit_middleware.py`). -/
def getClientIPRL (xff : Option String) (remote : String) : String :=
  match xff with
  | some s => if s = "" then remote else firstSplitComma s
  | none => remote

/-- Row of the `BlockedIP` model (`ip_address`, `created_at`, `reason`). -/
structure BlockedEntry where
  ip : String
  createdAt : Int
  reason : String
  deriving DecidableEq, Repr

/-- Embedding of `IPTrackingMiddleware.is_ip_blocked` (happy path):
`BlockedIP.objects.filter(ip_address=ip_address).exists()`. -/
def isIPBlockedB (blocked : List BlockedEntry) (ip : String) : Bool :=
  blocked.any (fun b => decide (b.ip = ip))

/-- Embedding of `is_ip_blocked` including its `try/except`: on a storage
error the request is treated as not blocked (fail open) and the error
branch is recorded in the second component. -/
def isIPBlockedSafe (queried : Except String Bool) : Bool × Bool :=
  match queried with
  | .error _ => (false, true)
  | .ok b => (b, false)

/-- Row of the `RequestLog` model as used by the tasks (`ip_address`,
`timestamp`, `path`; the optional geolocation columns are read by no task
or gate and are omitted). -/
structure LogEntry where
  ip : String
  timestamp : Int
  path : String
  deriving DecidableEq, Repr

/-- Response of the tracking middleware as far as the claims are concerned. -/
inductive GateResponse where
  | forbidden
  | allowed
  deriving DecidableEq, Repr

/-- An inbound HTTP request, reduced to the fields the middlewares read. -/
structure Request where
  xff : Option String
  remoteAddr : String
  path : String
  deriving DecidableEq, Repr

/-- Embedding of `IPTrackingMiddleware.__call__` and `process_request`:
derive the client identity, reject with 403 before any logging if it is in
the block list, otherwise append a `RequestLog` row and continue. -/
def trackingCall (blocked : List BlockedEntry) (logs : List LogEntry)
    (req : Request) (now : Int) : GateResponse × List LogEntry :=
  let ip := getClientIPTrk req.xff req.remoteAddr
  if isIPBlockedB blocked ip then (.forbidden, logs)
  else (.allowed, logs ++ [⟨ip, now, req.path⟩])

/-! ### Suspicion flags (`models.py` `SuspiciousIP`, `tasks.py` upserts) -/

/-- The fixed `SUSPICIOUS_REASONS` enumeration of `SuspiciousIP`. -/
inductive Reason where
  | highVolume
  | sensitivePaths
  | failedLogins
  | adminAccess
  | bruteForce
  deriving DecidableEq, Repr

/-- Display labels of `SUSPICIOUS_REASONS` (second tuple components). -/
def Reason.display : Reason → String
  | .highVolume => "High Request Volume"
  | .sensitivePaths => "Accessing Sensitive Paths"
  | .failedLogins => "Multiple Failed Login Attempts"
  | .adminAccess => "Admin Panel Access Attempts"
  | .bruteForce => "Brute Force Attack Pattern"

/-- Row of the `SuspiciousIP` model.  `requestCount` is the model's
`request_count` column. -/
structure Flag where
  ip : String
  reason : Reason
  details : String
  requestCount : Nat
  firstSeen : Int
  lastSeen : Int
  isActive : Bool
  deriving DecidableEq, Repr

/-- Key predicate of the `unique_together ['ip_address', 'reason']`
constraint, as used by `get_or_create(ip_address=..., reason=...)`. -/
def flagKeyMatches (ip : String) (r : Reason) (f : Flag) : Bool :=
  decide (f.ip = ip) && decide (f.reason = r)

/-- Replace the first element satisfying `p` by its image under `g`
(the single row returned by `get_or_create` is the one updated/saved). -/
def updateFirst (p : α → Bool) (g : α → α) : List α → List α
  | [] => []
  | x :: xs => if p x then g x :: xs else x :: updateFirst p g xs

/-- Embedding of the `get_or_create` + field-update + `save()` pattern that
every detector uses (e.g. `tasks.py` `check_high_volume_ips`): if no row
with key `(ip, reason)` exists, create one with the given `details` and
`request_count`, `first_seen = now` (column default `timezone.now`),
`last_seen = now` (`auto_now`) and `is_active = true` (column default);
otherwise refresh `details`, `request_count`, set `is_active = True` and
`save()` (which stamps `last_seen = now` via `auto_now`). -/
def upsertFlag (flags : List Flag) (ip : String) (r : Reason) (details : String)
    (count : Nat) (now : Int) : List Flag :=
  match flags.find? (flagKeyMatches ip r) with
  | none => flags ++ [⟨ip, r, details, count, now, now, true⟩]
  | some _ =>
    updateFirst (flagKeyMatches ip r)
      (fun f => { f with details := details, requestCount := count,
                         lastSeen := now, isActive := true }) flags

/-- Look up the flag row for `(ip, reason)`. -/
def findFlag (flags : List Flag) (ip : String) (r : Reason) : Option Flag :=
  flags.find? (flagKeyMatches ip r)

/-! ### Request-log aggregation helpers (Django `values().annotate(Count)`) -/

/-- Entries in the trailing window: `filter(timestamp__gte=since_time)`. -/
def logsSince (logs : List LogEntry) (since : Int) : List LogEntry :=
  logs.filter (fun e => decide (since ≤ e.timestamp))

/-- Total request count of an identity in the window. -/
def ipRequestCount (logs : List LogEntry) (since : Int) (ip : String) : Nat :=
  ((logsSince logs since).filter (fun e => decide (e.ip = ip))).length

/-- Group-by-`ip_address` key list: one entry per distinct identity. -/
def groupIPs (entries : List LogEntry) : List String :=
  (entries.map (fun e => e.ip)).dedup

/-! ### Brute-force detector (`tasks.py` `check_brute_force_patterns`) -/

/-- Details string of the brute-force flag. -/
def bruteForceDetails (cnt : Nat) : String :=
  "IP shows brute force pattern with " ++ toString cnt ++ " requests in the last hour"

/-- Existence check `SuspiciousIP.objects.filter(ip_address=ip,
reason='high_volume').exists()` — note: no `is_active` filter. -/
def hasHVFlag (flags : List Flag) (ip : String) : Bool :=
  flags.any (fun f => decide (f.ip = ip) && decide (f.reason = Reason.highVolume))

/-- Loop body of `check_brute_force_patterns`: skip the candidate when a
`high_volume` flag row exists for it (active or not — the code checks
existence only), otherwise upsert a `brute_force` flag and record it. -/
def bruteForceStep (logs : List LogEntry) (since now : Int)
    (acc : List Flag × List String) (ip : String) : List Flag × List String :=
  if hasHVFlag acc.1 ip then acc
  else
    let cnt := ipRequestCount logs since ip
    (upsertFlag acc.1 ip .bruteForce (bruteForceDetails cnt) cnt now,
     acc.2 ++ [ip])

/-- Embedding of `check_brute_force_patterns`: identities with more than
200 requests since `since` are candidates; each is processed by
`bruteForceStep`. -/
def checkBruteForce (logs : List LogEntry) (since now : Int) (flags : List Flag) :
    List Flag × List String :=
  ((groupIPs (logsSince logs since)).filter
      (fun ip => decide (200 < ipRequestCount logs since ip))).foldl
    (bruteForceStep logs since now) (flags, [])

/-! ### Sensitive-path detector (`tasks.py` `check_sensitive_path_access`) -/

/-- The hardcoded `sensitive_paths` list. -/
def sensitivePathList : List String :=
  ["/admin/", "/api/login/", "/api/dashboard/", "/api/profile/", "/admin/login/"]

/-- Count of an identity's window entries whose path starts with `p`
(`filter(timestamp__gte=since_time, path__startswith=path)`). -/
def sensitiveCount (logs : List LogEntry) (since : Int) (p ip : String) : Nat :=
  ((logsSince logs since).filter
    (fun e => strStartsWith e.path p && decide (e.ip = ip))).length

/-- Identities with more than 5 accesses to sensitive path `p`. -/
def sensitiveQualifiers (logs : List LogEntry) (since : Int) (p : String) :
    List String :=
  (groupIPs ((logsSince logs since).filter (fun e => strStartsWith e.path p))).filter
    (fun ip => decide (5 < sensitiveCount logs since p ip))

/-- Details string of the sensitive-path flag for path `p` and count `cnt`. -/
def sensitiveDetails (p : String) (cnt : Nat) : String :=
  "IP accessed sensitive path " ++ p ++ " " ++ toString cnt ++ " times in the last hour"

/-- Inner loop body of `check_sensitive_path_access` for sensitive path
`p`: upsert the identity's `sensitive_paths` flag with this path's details
and count, and record the identity once in the flagged list. -/
def sensitiveInnerStep (logs : List LogEntry) (since now : Int) (p : String)
    (acc2 : List Flag × List String) (ip : String) : List Flag × List String :=
  let cnt := sensitiveCount logs since p ip
  (upsertFlag acc2.1 ip .sensitivePaths (sensitiveDetails p cnt) cnt now,
   if ip ∈ acc2.2 then acc2.2 else acc2.2 ++ [ip])

/-- Outer loop body of `check_sensitive_path_access`: process every
identity qualifying under sensitive path `p`. -/
def sensitivePathPass (logs : List LogEntry) (since now : Int)
    (acc : List Flag × List String) (p : String) : List Flag × List String :=
  (sensitiveQualifiers logs since p).foldl (sensitiveInnerStep logs since now p) acc

/-- Embedding of `check_sensitive_path_access`: for each sensitive path in
order, upsert a `sensitive_paths` flag for every qualifying identity (a
later qualifying path overwrites `details`/`request_count` of the same
row), collecting each flagged identity once. -/
def checkSensitivePaths (logs : List LogEntry) (since now : Int) (flags : List Flag) :
    List Flag × List String :=
  sensitivePathList.foldl (sensitivePathPass logs since now) (flags, [])

/-- The sensitive paths under which an identity qualifies, in configured
order (spec-side measure used to state which path determines `details`). -/
def qualifyingPaths (logs : List LogEntry) (since : Int) (ip : String) : List String :=
  sensitivePathList.filter (fun p => decide (5 < sensitiveCount logs since p ip))

/-- Fixture: 201 requests of one identity inside the window, for the
brute-force counterexample. -/
def bruteForceExampleLogs : List LogEntry :=
  List.replicate 201 ⟨"7.7.7.7", 0, "/x"⟩

/-- Fixture: an inactive `high_volume` flag for the same identity. -/
def bruteForceExampleFlags : List Flag :=
  [⟨"7.7.7.7", .highVolume, "old", 300, 0, 0, false⟩]

/-- Fixture: 6 requests to `/admin/x` and 6 to `/api/login/` by one
identity, for the sensitive-path counterexample. -/
def sensitiveExampleLogs : List LogEntry :=
  List.replicate 6 ⟨"8.8.8.8", 0, "/admin/x"⟩ ++
    List.replicate 6 ⟨"8.8.8.8", 0, "/api/login/"⟩

/-- Fixture: one identity holding three distinct active flags, for the
escalator witness. -/
def escalatorExampleFlags : List Flag :=
  [⟨"3.3.3.3", .highVolume, "d", 101, 0, 0, true⟩,
   ⟨"3.3.3.3", .sensitivePaths, "d", 6, 0, 0, true⟩,
   ⟨"3.3.3.3", .adminAccess, "d", 4, 0, 0, true⟩]

/-! ### Auto-block escalator (`tasks.py` `auto_block_suspicious_ips`) -/

/-- Active flag rows of one identity
(`SuspiciousIP.objects.filter(ip_address=ip, is_active=True)`). -/
def activeFlagsFor (flags : List Flag) (ip : String) : List Flag :=
  flags.filter (fun f => f.isActive && decide (f.ip = ip))

/-- Number of active flag rows of an identity — the escalator's
`annotate(flag_count=Count('reason'))` counts rows of the group. -/
def activeFlagCount (flags : List Flag) (ip : String) : Nat :=
  (activeFlagsFor flags ip).length

/-- Group-by of `filter(is_active=True).values('ip_address')` restricted to
groups with `flag_count >= 3`. -/
def severeIPs (flags : List Flag) : List String :=
  ((flags.filter (fun f => f.isActive)).map (fun f => f.ip)).dedup.filter
    (fun ip => decide (3 ≤ activeFlagCount flags ip))

/-- The synthesized block reason:
`"Auto-blocked due to multiple suspicious activities: "` followed by the
display labels of the identity's active flag reasons, comma-joined. -/
def blockReasonText (flags : List Flag) (ip : String) : String :=
  "Auto-blocked due to multiple suspicious activities: " ++
    String.intercalate ", " ((activeFlagsFor flags ip).map (fun f => f.reason.display))

/-- Loop body of `auto_block_suspicious_ips`: skip identities already in
`BlockedIP`, otherwise insert a row and bump `blocked_count`. -/
def autoBlockStep (flags : List Flag) (now : Int) (acc : List BlockedEntry × Nat)
    (ip : String) : List BlockedEntry × Nat :=
  if isIPBlockedB acc.1 ip then acc
  else (acc.1 ++ [⟨ip, now, blockReasonText flags ip⟩], acc.2 + 1)

/-- Embedding of `auto_block_suspicious_ips`, returning the updated
`BlockedIP` table and the task's `blocked_count`. -/
def autoBlockSuspicious (flags : List Flag) (blocked : List BlockedEntry)
    (now : Int) : List BlockedEntry × Nat :=
  (severeIPs flags).foldl (autoBlockStep flags now) (blocked, 0)

/-- Number of distinct active flag reasons of an identity (the spec's
escalation measure; it agrees with `activeFlagCount` on stores satisfying
the `unique_together` constraint). -/
def distinctActiveReasons (flags : List Flag) (ip : String) : Nat :=
  ((activeFlagsFor flags ip).map (fun f => f.reason)).dedup.length

/-! ### Flag expiry sweep (`tasks.py` `cleanup_old_suspicious_flags`) -/

/-- Seconds per day, for `timedelta(days=n)`. -/
def secondsPerDay : Int := 86400

/-- Shared mutable state of the batch tasks: the `SuspiciousIP` table and
the `BlockedIP` table. -/
structure SysState where
  flags : List Flag
  blocked : List BlockedEntry
  deriving DecidableEq, Repr

/-- Filter of the sweep: `last_seen__lt = now - 7 days` and
`is_active=True`. -/
def staleFlag (now : Int) (f : Flag) : Bool :=
  decide (f.lastSeen < now - 7 * secondsPerDay) && f.isActive

/-- Embedding of `cleanup_old_suspicious_flags`: deactivate every stale
active flag, count them, touch nothing else; the `BlockedIP` table is not
read or written. -/
def cleanupOldFlags (s : SysState) (now : Int) : SysState × Nat :=
  ({ flags := s.flags.map (fun f =>
        if staleFlag now f then { f with isActive := false } else f),
     blocked := s.blocked },
   (s.flags.filter (staleFlag now)).length)

/-! ### Helper lemmas about `updateFirst` and `upsertFlag` -/

theorem length_updateFirst (p : α → Bool) (g : α → α) :
    ∀ l : List α, (updateFirst p g l).length = l.length := by
  intro l
  induction l with
  | nil => rfl
  | cons x xs ih =>
    unfold updateFirst
    by_cases hx : p x = true
    · rw [if_pos hx]
      simp
    · rw [if_neg hx]
      simpa using ih

theorem countP_updateFirst_preserve (p : α → Bool) (g : α → α)
    (hg : ∀ x, p x = true → p (g x) = true) :
    ∀ l : List α, (updateFirst p g l).countP p = l.countP p := by
  intro l
  induction l with
  | nil => rfl
  | cons x xs ih =>
    unfold updateFirst
    by_cases hx : p x = true
    · rw [if_pos hx]
      rw [List.countP_cons_of_pos _ _ (hg x hx), List.countP_cons_of_pos _ _ hx]
    · rw [if_neg hx]
      rw [List.countP_cons_of_neg _ _ hx, List.countP_cons_of_neg _ _ hx, ih]

theorem find?_updateFirst_self (p : α → Bool) (g : α → α) :
    ∀ (l : List α) (f₀ : α), l.find? p = some f₀ → p (g f₀) = true →
      (updateFirst p g l).find? p = some (g f₀) := by
  intro l
  induction l with
  | nil => intro f₀ h; simp at h
  | cons x xs ih =>
    intro f₀ h hq
    by_cases hx : p x = true
    · rw [List.find?_cons_of_pos _ hx] at h
      injection h with h
      subst h
      unfold updateFirst
      rw [if_pos hx, List.find?_cons_of_pos _ hq]
    · rw [List.find?_cons_of_neg _ hx] at h
      unfold updateFirst
      rw [if_neg hx, List.find?_cons_of_neg _ hx]
      exact ih f₀ h hq

theorem find?_updateFirst_disjoint (p q : α → Bool) (g : α → α)
    (h1 : ∀ x, p x = true → q x = false) (h2 : ∀ x, p x = true → q (g x) = false) :
    ∀ l : List α, (updateFirst p g l).find? q = l.find? q := by
  intro l
  induction l with
  | nil => rfl
  | cons x xs ih =>
    unfold updateFirst
    by_cases hx : p x = true
    · rw [if_pos hx]
      rw [List.find?_cons_of_neg _ (by simp [h2 x hx]),
          List.find?_cons_of_neg _ (by simp [h1 x hx])]
    · rw [if_neg hx]
      by_cases hq : q x = true
      · rw [List.find?_cons_of_pos _ hq, List.find?_cons_of_pos _ hq]
      · rw [List.find?_cons_of_neg _ hq, List.find?_cons_of_neg _ hq, ih]

theorem any_updateFirst_congr (p q : α → Bool) (g : α → α)
    (hg : ∀ x, q (g x) = q x) :
    ∀ l : List α, (updateFirst p g l).any q = l.any q := by
  intro l
  induction l with
  | nil => rfl
  | cons x xs ih =>
    unfold updateFirst
    by_cases hx : p x = true
    · rw [if_pos hx]
      simp [hg x]
    · rw [if_neg hx]
      simp [ih]

theorem filter_not_updateFirst (p : α → Bool) (g : α → α)
    (hg : ∀ x, p x = true → p (g x) = true) :
    ∀ l : List α,
      (updateFirst p g l).filter (fun x => !p x) = l.filter (fun x => !p x) := by
  intro l
  induction l with
  | nil => rfl
  | cons x xs ih =>
    unfold updateFirst
    by_cases hx : p x = true
    · rw [if_pos hx]
      rw [List.filter_cons, List.filter_cons]
      rw [if_neg (by simp [hg x hx]), if_neg (by simp [hx])]
    · rw [if_neg hx]
      rw [List.filter_cons, List.filter_cons]
      by_cases hnx : (!p x) = true
      · rw [if_pos hnx, if_pos hnx, ih]
      · rw [if_neg hnx, if_neg hnx, ih]

/-- The freshly created flag row matches its own key. -/
theorem flagKeyMatches_new (ip : String) (r : Reason) (d : String) (c : Nat) (now : Int) :
    flagKeyMatches ip r ⟨ip, r, d, c, now, now, true⟩ = true := by
  simp [flagKeyMatches]

/-- The field refresh of an upsert keeps the key. -/
theorem flagKeyMatches_update (ip : String) (r : Reason) (d : String) (c : Nat)
    (now : Int) (f : Flag) (h : flagKeyMatches ip r f = true) :
    flagKeyMatches ip r
      { f with details := d, requestCount := c, lastSeen := now, isActive := true } = true := by
  simpa [flagKeyMatches] using h

/-- Key-row count after an upsert: one if there was none, unchanged otherwise. -/
theorem countP_upsertFlag (flags : List Flag) (ip : String) (r : Reason)
    (d : String) (c : Nat) (now : Int) :
    (upsertFlag flags ip r d c now).countP (flagKeyMatches ip r) =
      if flags.countP (flagKeyMatches ip r) = 0 then 1
      else flags.countP (flagKeyMatches ip r) := by
  unfold upsertFlag
  cases hf : flags.find? (flagKeyMatches ip r) with
  | none =>
    have h0 : flags.countP (flagKeyMatches ip r) = 0 :=
      List.countP_eq_zero.mpr (List.find?_eq_none.mp hf)
    rw [if_pos h0, List.countP_append, h0]
    simp [flagKeyMatches_new]
  | some f₀ =>
    have hk : flagKeyMatches ip r f₀ = true := List.find?_some hf
    have hpos : 0 < flags.countP (flagKeyMatches ip r) :=
      List.countP_pos_iff.mpr ⟨f₀, List.mem_of_find?_eq_some hf, hk⟩
    rw [if_neg (Nat.pos_iff_ne_zero.mp hpos)]
    exact countP_updateFirst_preserve _ _
      (fun x hx => flagKeyMatches_update ip r d c now x hx) flags

/-- Looking up the upserted key always succeeds, and the row carries the
refreshed fields. -/
theorem findFlag_upsert_self (flags : List Flag) (ip : String) (r : Reason)
    (d : String) (c : Nat) (now : Int) :
    ∃ f, findFlag (upsertFlag flags ip r d c now) ip r = some f ∧
      f.ip = ip ∧ f.reason = r ∧ f.details = d ∧ f.requestCount = c ∧
      f.lastSeen = now ∧ f.isActive = true := by
  unfold findFlag upsertFlag
  cases hf : flags.find? (flagKeyMatches ip r) with
  | none =>
    refine ⟨⟨ip, r, d, c, now, now, true⟩, ?_, rfl, rfl, rfl, rfl, rfl, rfl⟩
    rw [List.find?_append, hf]
    simp [flagKeyMatches_new]
  | some f₀ =>
    have hk : flagKeyMatches ip r f₀ = true := List.find?_some hf
    have hkey : f₀.ip = ip ∧ f₀.reason = r := by
      simpa [flagKeyMatches] using hk
    refine ⟨{ f₀ with details := d, requestCount := c, lastSeen := now, isActive := true },
      ?_, hkey.1, hkey.2, rfl, rfl, rfl, rfl⟩
    exact find?_updateFirst_self _ _ flags f₀ hf (flagKeyMatches_update ip r d c now f₀ hk)

/-- Upserting one identity's flag leaves any other identity's flag row (of
the same reason) untouched. -/
theorem findFlag_upsert_ne (flags : List Flag) (ip' ip : String) (r : Reason)
    (d : String) (c : Nat) (now : Int) (hne : ip' ≠ ip) :
    findFlag (upsertFlag flags ip' r d c now) ip r = findFlag flags ip r := by
  unfold findFlag upsertFlag
  have hdisj : ∀ f : Flag, flagKeyMatches ip' r f = true → flagKeyMatches ip r f = false := by
    intro f hf
    have h := (by simpa [flagKeyMatches] using hf : f.ip = ip' ∧ f.reason = r)
    simp [flagKeyMatches, h.1, hne]
  cases hf : flags.find? (flagKeyMatches ip' r) with
  | none =>
    rw [List.find?_append]
    have : List.find? (flagKeyMatches ip r) [(⟨ip', r, d, c, now, now, true⟩ : Flag)] = none := by
      simp [flagKeyMatches, hne]
    rw [this, Option.or_none]
  | some f₀ =>
    refine find?_updateFirst_disjoint _ _ _ hdisj ?_ flags
    intro f hf'
    exact hdisj _ (flagKeyMatches_update ip' r d c now f hf')

/-- Upserting a brute-force flag never creates or destroys a high-volume
flag row. -/
theorem hasHVFlag_upsert_bruteForce (flags : List Flag) (ip' : String)
    (d : String) (c : Nat) (now : Int) (ip : String) :
    hasHVFlag (upsertFlag flags ip' .bruteForce d c now) ip = hasHVFlag flags ip := by
  unfold hasHVFlag upsertFlag
  cases hf : flags.find? (flagKeyMatches ip' .bruteForce) with
  | none =>
    rw [List.any_append]
    simp
  | some f₀ =>
    refine any_updateFirst_congr _ _ _ ?_ flags
    intro x
    rfl

/-! ### Claim C5 -/

/-- Claim C5: the flag upsert is idempotent and keyed on `(identity,
reason)` — starting from a store with at most one row for the key, two
upserts leave exactly one row for it; when no row exists the upsert creates
one with `is_active = true` and `first_seen = now`; when a row exists the
upsert only refreshes `details`, `request_count` and `last_seen` and forces
`is_active = true`, keeping identity, reason and `first_seen` and leaving
every other row unchanged. -/
theorem C5_upsert_idempotent (flags : List Flag) (ip : String) (r : Reason)
    (d₁ d₂ : String) (c₁ c₂ : Nat) (t₁ t₂ : Int)
    (huniq : flags.countP (flagKeyMatches ip r) ≤ 1) :
    ((upsertFlag (upsertFlag flags ip r d₁ c₁ t₁) ip r d₂ c₂ t₂).countP
        (flagKeyMatches ip r) = 1) ∧
    (flags.countP (flagKeyMatches ip r) = 0 →
      upsertFlag flags ip r d₁ c₁ t₁ = flags ++ [⟨ip, r, d₁, c₁, t₁, t₁, true⟩]) ∧
    (∀ f₀, findFlag flags ip r = some f₀ →
      upsertFlag flags ip r d₁ c₁ t₁ =
        updateFirst (flagKeyMatches ip r)
          (fun f => { f with details := d₁, requestCount := c₁,
                             lastSeen := t₁, isActive := true }) flags ∧
      findFlag (upsertFlag flags ip r d₁ c₁ t₁) ip r =
        some { f₀ with details := d₁, requestCount := c₁,
                       lastSeen := t₁, isActive := true } ∧
      (upsertFlag flags ip r d₁ c₁ t₁).filter (fun f => !flagKeyMatches ip r f) =
        flags.filter (fun f => !flagKeyMatches ip r f) ∧
      (upsertFlag flags ip r d₁ c₁ t₁).length = flags.length) := by
  refine ⟨?_, ?_, ?_⟩
  · have h1 := countP_upsertFlag flags ip r d₁ c₁ t₁
    have h2 := countP_upsertFlag (upsertFlag flags ip r d₁ c₁ t₁) ip r d₂ c₂ t₂
    rcases Nat.eq_zero_or_pos (flags.countP (flagKeyMatches ip r)) with h0 | hp
    · rw [if_pos h0] at h1
      rw [h1] at h2
      simpa using h2
    · have hone : flags.countP (flagKeyMatches ip r) = 1 := le_antisymm huniq hp
      rw [if_neg (by omega), hone] at h1
      rw [h1] at h2
      simpa using h2
  · intro h0
    unfold upsertFlag
    rw [List.find?_eq_none.mpr (List.countP_eq_zero.mp h0)]
  · intro f₀ hf₀
    have hfind : flags.find? (flagKeyMatches ip r) = some f₀ := hf₀
    have hk : flagKeyMatches ip r f₀ = true := List.find?_some hfind
    have hup : upsertFlag flags ip r d₁ c₁ t₁ =
        updateFirst (flagKeyMatches ip r)
          (fun f => { f with details := d₁, requestCount := c₁,
                             lastSeen := t₁, isActive := true }) flags := by
      unfold upsertFlag
      rw [hfind]
    refine ⟨hup, ?_, ?_, ?_⟩
    · unfold findFlag
      rw [hup]
      exact find?_updateFirst_self _ _ flags f₀ hfind
        (flagKeyMatches_update ip r d₁ c₁ t₁ f₀ hk)
    · rw [hup]
      exact filter_not_updateFirst _ _
        (fun x hx => flagKeyMatches_update ip r d₁ c₁ t₁ x hx) flags
    · rw [hup]
      exact length_updateFirst _ _ flags

/-- Closed instance of `C5_upsert_idempotent` on a singleton store holding
an inactive flag for the key: the second upsert reactivates and refreshes
it, and exactly one key row remains. -/
theorem C5_upsert_idempotent_witness :
    ((upsertFlag (upsertFlag [⟨"1.1.1.1", .highVolume, "old", 101, 0, 0, false⟩]
          "1.1.1.1" .highVolume "d1" 102 5)
        "1.1.1.1" .highVolume "d2" 103 6).countP
      (flagKeyMatches "1.1.1.1" .highVolume) = 1) :=
  (C5_upsert_idempotent [⟨"1.1.1.1", .highVolume, "old", 101, 0, 0, false⟩]
    "1.1.1.1" .highVolume "d1" "d2" 102 103 5 6 (by decide)).1

/-! ### Claim C2 -/

/-- Claim C2: a single rate-limit check fetches the stored sequence for the
key (empty if absent), drops every entry with `timestamp ≤ now -
window_size`, returns false without mutating stored state when the
remaining count reaches the limit, and otherwise appends `now` and persists
the pruned-and-appended sequence with an expiry of `window_size + grace`
for a grace of 10 ≥ 10 seconds, returning true. -/
theorem C2_rate_limit_algorithm :
    (10 : Int) ≥ 10 ∧
    ∀ (cached : Option (List Int)) (now : Int) (limit : Nat) (w : Int),
      checkRateLimitFull cached now limit w = specCheckRateLimit cached now limit w 10 := by
  refine ⟨le_refl _, ?_⟩
  intro cached now limit w
  have h : (cached.getD []).filter (fun t => decide (now - w < t)) =
      (cached.getD []).filter (fun t => !decide (t ≤ now - w)) := by
    refine List.filter_congr ?_
    intro t _
    rcases lt_or_le (now - w) t with h' | h'
    · simp [h', not_le.mpr h']
    · simp [not_lt.mpr h', h']
  simp only [checkRateLimitFull, specCheckRateLimit, pruneWindow, h]

/-! ### Claim C4 -/

/-- Claim C4: when the storage backend errors, both request-path gates fail
open — the rate-limit check returns true (whether the fetch or the persist
raised) and the block-list check returns false — and in both the error
branch logs the error instead of surfacing a rejection. -/
theorem C4_fail_open :
    (∀ (e : String) (setOutcome : Except String Unit) (now : Int) (limit : Nat) (w : Int),
        checkRateLimitSafe (.error e) setOutcome now limit w = (true, true)) ∧
    (∀ (e : String) (cached : Option (List Int)) (now : Int) (limit : Nat) (w : Int),
        (pruneWindow (cached.getD []) now w).length < limit →
        checkRateLimitSafe (.ok cached) (.error e) now limit w = (true, true)) ∧
    (∀ e : String, isIPBlockedSafe (.error e) = (false, true)) := by
  refine ⟨fun _ _ _ _ _ => rfl, ?_, fun _ => rfl⟩
  intro e cached now limit w h
  simp only [checkRateLimitSafe]
  rw [if_neg (by omega)]

/-- Closed instance of `C4_fail_open`: a persist-time backend error on an
admissible request still yields fail-open. -/
theorem C4_fail_open_witness :
    checkRateLimitSafe (.ok none) (.error "backend down") 0 1 60 = (true, true) :=
  C4_fail_open.2.1 "backend down" none 0 1 60 (by decide)

/-! ### Claim C8 -/

/-- Claim C8: the expiry sweep with 7-day retention leaves every flag whose
`last_seen` is older than `now - 7 days` inactive, changes no other flag
(and touches at most `is_active` on the stale ones), deletes no row, and
leaves the block list entirely unchanged; a flag 8 days old is deactivated
while one 6 days old is untouched. -/
theorem C8_expiry_sweep :
    (∀ (s : SysState) (now : Int),
      (cleanupOldFlags s now).1.flags.length = s.flags.length ∧
      (cleanupOldFlags s now).1.blocked = s.blocked ∧
      ∀ (i : Nat) (h : i < s.flags.length) (h' : i < (cleanupOldFlags s now).1.flags.length),
        ((s.flags.get ⟨i, h⟩).lastSeen < now - 7 * secondsPerDay →
            ((cleanupOldFlags s now).1.flags.get ⟨i, h'⟩).isActive = false) ∧
        (¬ (s.flags.get ⟨i, h⟩).lastSeen < now - 7 * secondsPerDay →
            (cleanupOldFlags s now).1.flags.get ⟨i, h'⟩ = s.flags.get ⟨i, h⟩) ∧
        ((cleanupOldFlags s now).1.flags.get ⟨i, h'⟩ = s.flags.get ⟨i, h⟩ ∨
          (cleanupOldFlags s now).1.flags.get ⟨i, h'⟩ =
            { s.flags.get ⟨i, h⟩ with isActive := false })) ∧
    (∀ (now : Int) (f8 f6 : Flag) (bl : List BlockedEntry),
      f8.lastSeen = now - 8 * secondsPerDay → f8.isActive = true →
      f6.lastSeen = now - 6 * secondsPerDay →
      (cleanupOldFlags ⟨[f8, f6], bl⟩ now).1.flags = [{ f8 with isActive := false }, f6]) := by
  constructor
  · intro s now
    refine ⟨by simp [cleanupOldFlags], rfl, ?_⟩
    intro i h h'
    have hg : (cleanupOldFlags s now).1.flags.get ⟨i, h'⟩ =
        (if staleFlag now (s.flags.get ⟨i, h⟩) then
          { s.flags.get ⟨i, h⟩ with isActive := false }
         else s.flags.get ⟨i, h⟩) := by
      simp [cleanupOldFlags, List.get_eq_getElem, List.getElem_map]
    refine ⟨?_, ?_, ?_⟩
    · intro hlt
      rw [hg]
      by_cases ha : (s.flags.get ⟨i, h⟩).isActive = true
      · have hp : staleFlag now (s.flags.get ⟨i, h⟩) = true := by
          simp only [staleFlag, Bool.and_eq_true, decide_eq_true_eq]
          exact ⟨hlt, ha⟩
        rw [if_pos hp]
      · have hab : (s.flags.get ⟨i, h⟩).isActive = false := by
          simpa using ha
        rw [if_neg (by simp [staleFlag]; exact fun _ => hab)]
        exact hab
    · intro hge
      have hn : ¬ staleFlag now (s.flags.get ⟨i, h⟩) = true := by
        simp only [staleFlag, Bool.and_eq_true, decide_eq_true_eq]
        intro hc
        exact absurd hc.1 hge
      rw [hg, if_neg hn]
    · rw [hg]
      by_cases hs : staleFlag now (s.flags.get ⟨i, h⟩) = true
      · right; rw [if_pos hs]
      · left; rw [if_neg hs]
  · intro now f8 f6 bl h8 ha h6
    have hs8 : staleFlag now f8 = true := by
      simp [staleFlag, h8, ha, secondsPerDay]
    have hs6 : staleFlag now f6 = false := by
      simp [staleFlag, h6, secondsPerDay]
    simp [cleanupOldFlags, hs8, hs6]

/-- Closed instance of `C8_expiry_sweep`: a two-flag store with an 8-day-old
active flag and a 6-day-old flag, under an untouched one-entry block list. -/
theorem C8_expiry_sweep_witness :
    (cleanupOldFlags
        ⟨[⟨"5.5.5.5", .highVolume, "d", 101, 0, 1000000 - 8 * 86400, true⟩,
          ⟨"6.6.6.6", .adminAccess, "d", 4, 0, 1000000 - 6 * 86400, true⟩],
         [⟨"9.9.9.9", 0, "manual"⟩]⟩ 1000000).1.flags =
      [⟨"5.5.5.5", .highVolume, "d", 101, 0, 1000000 - 8 * 86400, false⟩,
       ⟨"6.6.6.6", .adminAccess, "d", 4, 0, 1000000 - 6 * 86400, true⟩] :=
  C8_expiry_sweep.2 1000000
    ⟨"5.5.5.5", .highVolume, "d", 101, 0, 1000000 - 8 * 86400, true⟩
    ⟨"6.6.6.6", .adminAccess, "d", 4, 0, 1000000 - 6 * 86400, true⟩
    [⟨"9.9.9.9", 0, "manual"⟩] (by decide) rfl (by decide)

/-! ### Claim C9 -/

/-- Claim C9: the block-list gate is consulted on every request with no
path exemptions (the rate limiter's skip list — which does exempt
`/health/` — plays no role here): a request whose derived client identity
is in the block list receives a 403 response before application logic and
before any request-log append, so the log gains no row. -/
theorem C9_block_gate :
    (∀ (blocked : List BlockedEntry) (logs : List LogEntry) (req : Request) (now : Int),
        isIPBlockedB blocked (getClientIPTrk req.xff req.remoteAddr) = true →
        trackingCall blocked logs req now = (.forbidden, logs)) ∧
    shouldSkipRateLimit "/health/" = true := by
  refine ⟨?_, by decide⟩
  intro blocked logs req now h
  unfold trackingCall
  simp [h]

/-- Closed instance of `C9_block_gate`: a blocked identity requesting the
rate-limiter-exempt path `/health/` is still rejected and leaves no log row. -/
theorem C9_block_gate_witness :
    trackingCall [⟨"9.9.9.9", 0, "manual"⟩] [] ⟨none, "9.9.9.9", "/health/"⟩ 5 =
      (.forbidden, []) :=
  C9_block_gate.1 [⟨"9.9.9.9", 0, "manual"⟩] [] ⟨none, "9.9.9.9", "/health/"⟩ 5 (by decide)

/-! ### Claim C10 -/

/-- Claim C10 counterexample: with `X-Forwarded-For` present but empty, the
code (both middlewares run the identical function) falls back to
`REMOTE_ADDR`, while the claim prescribes the first comma-separated entry
of the header, which is the empty string. -/
theorem C10_counterexample :
    getClientIPTrk (some "") "9.9.9.9" = "9.9.9.9" ∧
    firstSplitComma "" = "" ∧
    getClientIPTrk (some "") "9.9.9.9" ≠ firstSplitComma "" := by
  refine ⟨rfl, by decide, by decide⟩

/-- Claim C10 (amended): both middlewares derive the client identity by the
same function; for every request that function returns the first
comma-separated entry of `X-Forwarded-For` when the header is present and
non-empty, and the `REMOTE_ADDR` value otherwise (header absent or empty);
hence both gates judge any given request under the same identity. -/
theorem C10_same_identity :
    (∀ (xff : Option String) (remote : String),
        getClientIPTrk xff remote = getClientIPRL xff remote) ∧
    (∀ (s remote : String), s ≠ "" →
        getClientIPTrk (some s) remote = firstSplitComma s) ∧
    (∀ remote : String, getClientIPTrk none remote = remote) ∧
    (∀ remote : String, getClientIPTrk (some "") remote = remote) := by
  refine ⟨?_, ?_, fun _ => rfl, fun _ => rfl⟩
  · intro xff remote; cases xff <;> rfl
  · intro s remote hs
    simp [getClientIPTrk, hs]

/-- Closed instance of `C10_same_identity`: a proxied request with two
forwarded addresses resolves to the first one. -/
theorem C10_same_identity_witness :
    getClientIPTrk (some "1.2.3.4,5.6.7.8") "9.9.9.9" =
      firstSplitComma "1.2.3.4,5.6.7.8" :=
  C10_same_identity.2.1 "1.2.3.4,5.6.7.8" "9.9.9.9" (by decide)

/-! ### Claim C6 -/

theorem mem_groupIPs_of_count_pos (logs : List LogEntry) (since : Int) (ip : String)
    (h : 0 < ipRequestCount logs since ip) : ip ∈ groupIPs (logsSince logs since) := by
  unfold ipRequestCount at h
  obtain ⟨e, he⟩ := List.exists_mem_of_length_pos h
  have he2 := List.mem_filter.mp he
  have heip : e.ip = ip := by simpa using he2.2
  unfold groupIPs
  exact List.mem_dedup.mpr (heip ▸ List.mem_map_of_mem (fun e => e.ip) he2.1)

theorem mem_bruteForceCandidates (logs : List LogEntry) (since : Int) (ip : String) :
    ip ∈ (groupIPs (logsSince logs since)).filter
        (fun j => decide (200 < ipRequestCount logs since j)) ↔
      200 < ipRequestCount logs since ip := by
  constructor
  · intro h
    simpa using (List.mem_filter.mp h).2
  · intro h
    exact List.mem_filter.mpr
      ⟨mem_groupIPs_of_count_pos logs since ip (by omega), by simpa using h⟩

/-- The flagged list produced by the brute-force fold: an identity appears
iff it was already recorded or it is a candidate with no `high_volume` row
in the evolving store. -/
theorem mem_bruteForce_foldl (logs : List LogEntry) (since now : Int) (ip : String) :
    ∀ (cands : List String) (acc : List Flag × List String),
      (ip ∈ (cands.foldl (bruteForceStep logs since now) acc).2 ↔
        ip ∈ acc.2 ∨ (ip ∈ cands ∧ hasHVFlag acc.1 ip = false)) := by
  intro cands
  induction cands with
  | nil => intro acc; simp
  | cons c cs ih =>
    intro acc
    rw [List.foldl_cons, ih]
    by_cases hc : hasHVFlag acc.1 c = true
    · have hstep : bruteForceStep logs since now acc c = acc := by
        unfold bruteForceStep
        rw [if_pos hc]
      rw [hstep]
      by_cases hip : ip = c
      · subst hip
        simp [hc]
      · simp [List.mem_cons, hip]
    · have hstep : bruteForceStep logs since now acc c =
          (upsertFlag acc.1 c .bruteForce
            (bruteForceDetails (ipRequestCount logs since c))
            (ipRequestCount logs since c) now, acc.2 ++ [c]) := by
        unfold bruteForceStep
        rw [if_neg hc]
      rw [hstep]
      simp only [hasHVFlag_upsert_bruteForce, List.mem_append, List.mem_cons,
        List.mem_singleton]
      by_cases hip : ip = c
      · subst hip
        have hcf : hasHVFlag acc.1 ip = false := by
          simpa using hc
        simp [hcf]
      · simp [hip]

/-- Claim C6 counterexample: an identity with 201 requests in the window
and only an inactive `high_volume` flag is left unflagged by
`check_brute_force_patterns` — the code's exclusion ignores `is_active`,
so the claim's "excluded only when the high_volume flag is active" fails. -/
theorem C6_counterexample :
    200 < ipRequestCount bruteForceExampleLogs 0 "7.7.7.7" ∧
    bruteForceExampleFlags.all (fun f => !f.isActive) = true ∧
    (checkBruteForce bruteForceExampleLogs 0 5 bruteForceExampleFlags).2 = [] := by
  have hsince : logsSince bruteForceExampleLogs 0 = bruteForceExampleLogs := by
    refine List.filter_eq_self.mpr ?_
    intro e he
    have : e = (⟨"7.7.7.7", 0, "/x"⟩ : LogEntry) := List.eq_of_mem_replicate he
    subst this
    decide
  have hcount : ipRequestCount bruteForceExampleLogs 0 "7.7.7.7" = 201 := by
    unfold ipRequestCount
    rw [hsince]
    rw [List.filter_eq_self.mpr ?_]
    · rfl
    · intro e he
      have : e = (⟨"7.7.7.7", 0, "/x"⟩ : LogEntry) := List.eq_of_mem_replicate he
      subst this
      decide
  have hdedup : (List.replicate 201 "7.7.7.7").dedup = ["7.7.7.7"] := by
    have : ∀ n : Nat, (List.replicate (n + 1) "7.7.7.7").dedup = ["7.7.7.7"] := by
      intro n
      induction n with
      | zero => decide
      | succ m ihm =>
        rw [List.replicate_succ, List.dedup_cons_of_mem
          (by exact List.mem_replicate.mpr ⟨Nat.succ_ne_zero m, rfl⟩), ihm]
    exact this 200
  have hgroup : groupIPs (logsSince bruteForceExampleLogs 0) = ["7.7.7.7"] := by
    rw [hsince]
    unfold groupIPs bruteForceExampleLogs
    rw [List.map_replicate]
    exact hdedup
  refine ⟨by rw [hcount]; omega, by decide, ?_⟩
  unfold checkBruteForce
  rw [hgroup]
  have hcand : (["7.7.7.7"].filter
      (fun j => decide (200 < ipRequestCount bruteForceExampleLogs 0 j))) = ["7.7.7.7"] := by
    refine List.filter_eq_self.mpr ?_
    intro a ha
    have : a = "7.7.7.7" := by simpa using ha
    subst this
    rw [hcount]
    decide
  rw [hcand]
  have hstep : bruteForceStep bruteForceExampleLogs 0 5 (bruteForceExampleFlags, []) "7.7.7.7" =
      (bruteForceExampleFlags, []) := by
    unfold bruteForceStep
    rw [if_pos (by decide)]
  simp [hstep]

/-- Claim C6 (amended): `check_brute_force_patterns` flags exactly the
identities whose total request count in the trailing window exceeds 200 and
that hold no `high_volume` flag row at all, whether active or inactive. -/
theorem C6_brute_force (logs : List LogEntry) (since now : Int) (flags : List Flag)
    (ip : String) :
    ip ∈ (checkBruteForce logs since now flags).2 ↔
      (200 < ipRequestCount logs since ip ∧ hasHVFlag flags ip = false) := by
  unfold checkBruteForce
  rw [mem_bruteForce_foldl]
  simp only [List.not_mem_nil, false_or]
  rw [mem_bruteForceCandidates]

/-! ### Claim C7 -/

theorem mem_sensitiveQualifiers (logs : List LogEntry) (since : Int) (p ip : String) :
    ip ∈ sensitiveQualifiers logs since p ↔ 5 < sensitiveCount logs since p ip := by
  constructor
  · intro h
    simpa using (List.mem_filter.mp h).2
  · intro h
    refine List.mem_filter.mpr ⟨?_, by simpa using h⟩
    have hpos : 0 < sensitiveCount logs since p ip := by omega
    unfold sensitiveCount at hpos
    obtain ⟨e, he⟩ := List.exists_mem_of_length_pos hpos
    have he2 := List.mem_filter.mp he
    have hb := (Bool.and_eq_true _ _).mp he2.2
    have heip : e.ip = ip := by simpa using hb.2
    unfold groupIPs
    refine List.mem_dedup.mpr ?_
    exact heip ▸ List.mem_map_of_mem (fun e => e.ip)
      (List.mem_filter.mpr ⟨he2.1, hb.1⟩)

/-- Processing a qualifier list that does not contain `ip` leaves `ip`'s
sensitive-path flag row unchanged. -/
theorem sensitive_inner_not_mem (logs : List LogEntry) (since now : Int) (p : String)
    (ip : String) :
    ∀ (q : List String) (acc : List Flag × List String), ip ∉ q →
      findFlag ((q.foldl (sensitiveInnerStep logs since now p) acc).1) ip .sensitivePaths =
        findFlag acc.1 ip .sensitivePaths := by
  intro q
  induction q with
  | nil => intro acc _; rfl
  | cons j q' ih =>
    intro acc hip
    have hj : j ≠ ip := fun h => hip (h ▸ List.mem_cons_self j q')
    have hq' : ip ∉ q' := fun h => hip (List.mem_cons_of_mem j h)
    rw [List.foldl_cons, ih _ hq']
    unfold sensitiveInnerStep
    exact findFlag_upsert_ne _ j ip .sensitivePaths _ _ now hj

/-- Processing a qualifier list that contains `ip` leaves `ip`'s
sensitive-path flag row refreshed with this path's details and count. -/
theorem sensitive_inner_mem (logs : List LogEntry) (since now : Int) (p : String)
    (ip : String) :
    ∀ (q : List String) (acc : List Flag × List String), ip ∈ q →
      ∃ f, findFlag ((q.foldl (sensitiveInnerStep logs since now p) acc).1)
            ip .sensitivePaths = some f ∧
        f.details = sensitiveDetails p (sensitiveCount logs since p ip) ∧
        f.requestCount = sensitiveCount logs since p ip ∧
        f.lastSeen = now ∧ f.isActive = true := by
  intro q
  induction q with
  | nil => intro acc h; simp at h
  | cons j q' ih =>
    intro acc hip
    rw [List.foldl_cons]
    by_cases hq' : ip ∈ q'
    · exact ih _ hq'
    · have hj : j = ip := by
        rcases List.mem_cons.mp hip with h | h
        · exact h.symm
        · exact absurd h hq'
      subst hj
      rw [sensitive_inner_not_mem logs since now p j q' _ hq']
      unfold sensitiveInnerStep
      obtain ⟨f, hf, hfip, hfr, hd, hc, hl, ha⟩ :=
        findFlag_upsert_self acc.1 j .sensitivePaths
          (sensitiveDetails p (sensitiveCount logs since p j))
          (sensitiveCount logs since p j) now
      exact ⟨f, hf, hd, hc, hl, ha⟩

/-- Flagged-list membership of the inner fold. -/
theorem sensitive_inner_flagged (logs : List LogEntry) (since now : Int) (p : String)
    (ip : String) :
    ∀ (q : List String) (acc : List Flag × List String),
      (ip ∈ (q.foldl (sensitiveInnerStep logs since now p) acc).2 ↔
        ip ∈ acc.2 ∨ ip ∈ q) := by
  intro q
  induction q with
  | nil => intro acc; simp
  | cons j q' ih =>
    intro acc
    rw [List.foldl_cons, ih]
    have hstep : (sensitiveInnerStep logs since now p acc j).2 =
        if j ∈ acc.2 then acc.2 else acc.2 ++ [j] := rfl
    rw [hstep]
    by_cases hj : j ∈ acc.2
    · rw [if_pos hj]
      constructor
      · intro h
        rcases h with h | h
        · exact Or.inl h
        · exact Or.inr (List.mem_cons_of_mem j h)
      · intro h
        rcases h with h | h
        · exact Or.inl h
        · rcases List.mem_cons.mp h with h | h
          · exact Or.inl (h ▸ hj)
          · exact Or.inr h
    · rw [if_neg hj]
      simp only [List.mem_append, List.mem_singleton, List.mem_cons]
      tauto

/-- Row effect of the whole path loop: the last qualifying path determines
the flag's details and count; with no qualifying path the row is untouched. -/
theorem sensitive_outer_row (logs : List LogEntry) (since now : Int) (ip : String) :
    ∀ (ps : List String) (acc : List Flag × List String),
      (∀ pl, (ps.filter (fun p => decide (5 < sensitiveCount logs since p ip))).getLast?
            = some pl →
        ∃ f, findFlag ((ps.foldl (sensitivePathPass logs since now) acc).1)
              ip .sensitivePaths = some f ∧
          f.details = sensitiveDetails pl (sensitiveCount logs since pl ip) ∧
          f.requestCount = sensitiveCount logs since pl ip ∧
          f.lastSeen = now ∧ f.isActive = true) ∧
      ((ps.filter (fun p => decide (5 < sensitiveCount logs since p ip))).getLast?
            = none →
        findFlag ((ps.foldl (sensitivePathPass logs since now) acc).1)
            ip .sensitivePaths = findFlag acc.1 ip .sensitivePaths) := by
  intro ps
  induction ps using List.reverseRecOn with
  | nil =>
    intro acc
    exact ⟨fun pl h => by simp at h, fun _ => rfl⟩
  | append_singleton ps p ih =>
    intro acc
    rw [List.foldl_concat, List.filter_append]
    by_cases hq : 5 < sensitiveCount logs since p ip
    · have hfp : List.filter (fun p => decide (5 < sensitiveCount logs since p ip)) [p]
          = [p] := by
        simp [hq]
      rw [hfp, List.getLast?_concat]
      have hmem : ip ∈ sensitiveQualifiers logs since p :=
        (mem_sensitiveQualifiers logs since p ip).mpr hq
      constructor
      · intro pl hpl
        have hpe : p = pl := by injection hpl
        subst hpe
        exact sensitive_inner_mem logs since now p ip _ _ hmem
      · intro h
        cases h
    · have hfp : List.filter (fun p => decide (5 < sensitiveCount logs since p ip)) [p]
          = [] := by
        simp [hq]
      rw [hfp, List.append_nil]
      have hnmem : ip ∉ sensitiveQualifiers logs since p := fun h =>
        hq ((mem_sensitiveQualifiers logs since p ip).mp h)
      have hpass : findFlag ((sensitivePathPass logs since now
            (ps.foldl (sensitivePathPass logs since now) acc) p).1) ip .sensitivePaths =
          findFlag ((ps.foldl (sensitivePathPass logs since now) acc).1) ip .sensitivePaths :=
        sensitive_inner_not_mem logs since now p ip _ _ hnmem
      exact ⟨fun pl hpl => hpass ▸ (ih acc).1 pl hpl,
             fun h => hpass.trans ((ih acc).2 h)⟩

/-- Flagged-list membership of the whole path loop. -/
theorem sensitive_outer_flagged (logs : List LogEntry) (since now : Int) (ip : String) :
    ∀ (ps : List String) (acc : List Flag × List String),
      (ip ∈ (ps.foldl (sensitivePathPass logs since now) acc).2 ↔
        ip ∈ acc.2 ∨ ∃ p ∈ ps, ip ∈ sensitiveQualifiers logs since p) := by
  intro ps
  induction ps with
  | nil => intro acc; simp
  | cons p ps' ih =>
    intro acc
    rw [List.foldl_cons, ih]
    unfold sensitivePathPass
    rw [sensitive_inner_flagged]
    simp only [List.mem_cons]
    constructor
    · intro h
      rcases h with (h | h) | ⟨p', hp', hm⟩
      · exact Or.inl h
      · exact Or.inr ⟨p, Or.inl rfl, h⟩
      · exact Or.inr ⟨p', Or.inr hp', hm⟩
    · intro h
      rcases h with h | ⟨p', hp', hm⟩
      · exact Or.inl (Or.inl h)
      · rcases hp' with hp' | hp'
        · exact Or.inl (Or.inr (hp' ▸ hm))
        · exact Or.inr ⟨p', hp', hm⟩

/-- Claim C7 counterexample: an identity qualifying under `/admin/` (first
in the configured list) and `/api/login/` ends the pass with `details`
describing `/api/login/` — the last qualifying path, not the first. -/
theorem C7_counterexample :
    (qualifyingPaths sensitiveExampleLogs 0 "8.8.8.8").headD "" = "/admin/" ∧
    ((findFlag (checkSensitivePaths sensitiveExampleLogs 0 5 []).1
        "8.8.8.8" .sensitivePaths).map (fun f => f.details)) =
      some (sensitiveDetails "/api/login/" 6) ∧
    sensitiveDetails "/api/login/" 6 ≠ sensitiveDetails "/admin/" 6 := by
  refine ⟨by decide, by decide, by decide⟩

/-- Claim C7 (amended): the sensitive-path detector flags every identity
with more than 5 window entries under some configured sensitive path, and
when an identity qualifies under more than one path, the last qualifying
path in the configured list determines the flag's `details` (and count). -/
theorem C7_sensitive_paths (logs : List LogEntry) (since now : Int)
    (flags : List Flag) (ip : String) :
    (∀ p ∈ sensitivePathList, 5 < sensitiveCount logs since p ip →
      ip ∈ (checkSensitivePaths logs since now flags).2) ∧
    (∀ pl, (qualifyingPaths logs since ip).getLast? = some pl →
      ∃ f, findFlag (checkSensitivePaths logs since now flags).1 ip .sensitivePaths
            = some f ∧
        f.details = sensitiveDetails pl (sensitiveCount logs since pl ip) ∧
        f.requestCount = sensitiveCount logs since pl ip ∧
        f.lastSeen = now ∧ f.isActive = true) := by
  constructor
  · intro p hp hcnt
    refine (sensitive_outer_flagged logs since now ip sensitivePathList (flags, [])).mpr ?_
    exact Or.inr ⟨p, hp, (mem_sensitiveQualifiers logs since p ip).mpr hcnt⟩
  · intro pl hpl
    exact (sensitive_outer_row logs since now ip sensitivePathList (flags, [])).1 pl hpl

/-- Closed instance of `C7_sensitive_paths`: the example identity's flag
row carries the details of the last qualifying path `/api/login/`. -/
theorem C7_sensitive_paths_witness :
    ∃ f, findFlag (checkSensitivePaths sensitiveExampleLogs 0 5 []).1
          "8.8.8.8" .sensitivePaths = some f ∧
      f.details = sensitiveDetails "/api/login/"
        (sensitiveCount sensitiveExampleLogs 0 "/api/login/" "8.8.8.8") ∧
      f.requestCount = sensitiveCount sensitiveExampleLogs 0 "/api/login/" "8.8.8.8" ∧
      f.lastSeen = 5 ∧ f.isActive = true :=
  (C7_sensitive_paths sensitiveExampleLogs 0 5 [] "8.8.8.8").2 "/api/login/" (by decide)

/-! ### Claim C3 -/

/-- Under the `unique_together ['ip_address', 'reason']` constraint the
escalator's per-group row count equals the number of distinct active
reasons. -/
theorem activeFlagCount_eq_distinct (flags : List Flag) (ip : String)
    (hNodup : (flags.map (fun f => (f.ip, f.reason))).Nodup) :
    activeFlagCount flags ip = distinctActiveReasons flags ip := by
  have hpairs : ((activeFlagsFor flags ip).map (fun f => (f.ip, f.reason))).Nodup :=
    hNodup.sublist ((List.filter_sublist flags).map (fun f => (f.ip, f.reason)))
  have hinj := List.inj_on_of_nodup_map hpairs
  have hflt : (activeFlagsFor flags ip).Nodup :=
    List.Nodup.of_map (fun f => (f.ip, f.reason)) hpairs
  have hipmem : ∀ f ∈ activeFlagsFor flags ip, f.ip = ip := by
    intro f hf
    have := (List.mem_filter.mp hf).2
    have := (Bool.and_eq_true _ _).mp this
    simpa using this.2
  have hreasons : ((activeFlagsFor flags ip).map (fun f => f.reason)).Nodup := by
    refine List.Nodup.map_on ?_ hflt
    intro x hx y hy hr
    refine hinj hx hy ?_
    rw [Prod.ext_iff]
    exact ⟨(hipmem x hx).trans (hipmem y hy).symm, hr⟩
  unfold distinctActiveReasons activeFlagCount
  rw [List.dedup_eq_self.mpr hreasons, List.length_map]

theorem mem_severeIPs (flags : List Flag) (ip : String) :
    ip ∈ severeIPs flags ↔ 3 ≤ activeFlagCount flags ip := by
  constructor
  · intro h
    simpa using (List.mem_filter.mp h).2
  · intro h
    refine List.mem_filter.mpr ⟨?_, by simpa using h⟩
    have hpos : 0 < activeFlagCount flags ip := by omega
    unfold activeFlagCount activeFlagsFor at hpos
    obtain ⟨f, hf⟩ := List.exists_mem_of_length_pos hpos
    have hf2 := List.mem_filter.mp hf
    have hb := (Bool.and_eq_true _ _).mp hf2.2
    have hfip : f.ip = ip := by simpa using hb.2
    refine List.mem_dedup.mpr ?_
    exact hfip ▸ List.mem_map_of_mem (fun f => f.ip)
      (List.mem_filter.mpr ⟨hf2.1, hb.1⟩)

/-- The escalator only appends: the resulting block list extends the
starting one, and every appended entry's identity comes from the processed
list. -/
theorem autoBlock_foldl_append (flags : List Flag) (now : Int) :
    ∀ (l : List String) (acc : List BlockedEntry × Nat),
      ∃ tail, (l.foldl (autoBlockStep flags now) acc).1 = acc.1 ++ tail ∧
        ∀ b ∈ tail, b.ip ∈ l := by
  intro l
  induction l with
  | nil => intro acc; exact ⟨[], by simp, by simp⟩
  | cons c cs ih =>
    intro acc
    rw [List.foldl_cons]
    by_cases hc : isIPBlockedB acc.1 c = true
    · have hstep : autoBlockStep flags now acc c = acc := by
        unfold autoBlockStep; rw [if_pos hc]
      rw [hstep]
      obtain ⟨tail, h1, h2⟩ := ih acc
      exact ⟨tail, h1, fun b hb => List.mem_cons_of_mem c (h2 b hb)⟩
    · have hstep : autoBlockStep flags now acc c =
          (acc.1 ++ [⟨c, now, blockReasonText flags c⟩], acc.2 + 1) := by
        unfold autoBlockStep; rw [if_neg hc]
      rw [hstep]
      obtain ⟨tail, h1, h2⟩ := ih (acc.1 ++ [⟨c, now, blockReasonText flags c⟩], acc.2 + 1)
      refine ⟨⟨c, now, blockReasonText flags c⟩ :: tail, by simpa using h1, ?_⟩
      intro b hb
      rcases List.mem_cons.mp hb with hb | hb
      · subst hb; exact List.mem_cons_self c cs
      · exact List.mem_cons_of_mem c (h2 b hb)

/-- Identities outside the processed list keep their block-row count. -/
theorem autoBlock_foldl_countP_of_not_mem (flags : List Flag) (now : Int)
    (l : List String) (acc : List BlockedEntry × Nat) (ip : String) (hip : ip ∉ l) :
    (l.foldl (autoBlockStep flags now) acc).1.countP (fun b => decide (b.ip = ip)) =
      acc.1.countP (fun b => decide (b.ip = ip)) := by
  obtain ⟨tail, h1, h2⟩ := autoBlock_foldl_append flags now l acc
  rw [h1, List.countP_append]
  have : tail.countP (fun b => decide (b.ip = ip)) = 0 := by
    refine List.countP_eq_zero.mpr ?_
    intro b hb
    simp only [decide_eq_true_eq]
    intro hbe
    exact hip (hbe ▸ h2 b hb)
  omega

/-- After the escalator run, every processed identity has a block-list row. -/
theorem autoBlock_foldl_present (flags : List Flag) (now : Int) :
    ∀ (l : List String) (acc : List BlockedEntry × Nat) (j : String), j ∈ l →
      ∃ b ∈ (l.foldl (autoBlockStep flags now) acc).1, b.ip = j := by
  intro l
  induction l with
  | nil => intro acc j h; simp at h
  | cons c cs ih =>
    intro acc j hj
    rw [List.foldl_cons]
    rcases List.mem_cons.mp hj with hj | hj
    · subst hj
      have hpre : ∃ b ∈ (autoBlockStep flags now acc j).1, b.ip = j := by
        unfold autoBlockStep
        by_cases hc : isIPBlockedB acc.1 j = true
        · rw [if_pos hc]
          obtain ⟨b, hb, hbe⟩ := List.any_eq_true.mp hc
          exact ⟨b, hb, by simpa using hbe⟩
        · rw [if_neg hc]
          exact ⟨⟨j, now, blockReasonText flags j⟩, by simp, rfl⟩
      obtain ⟨b, hb, hbe⟩ := hpre
      obtain ⟨tail, h1, _⟩ := autoBlock_foldl_append flags now cs (autoBlockStep flags now acc j)
      exact ⟨b, h1 ▸ List.mem_append_left tail hb, hbe⟩
    · exact ih _ j hj

/-- A processed identity with no prior block row is inserted exactly once,
with the synthesized reason text. -/
theorem autoBlock_foldl_once (flags : List Flag) (now : Int) :
    ∀ (l : List String) (acc : List BlockedEntry × Nat) (ip : String),
      l.Nodup → ip ∈ l →
      acc.1.countP (fun b => decide (b.ip = ip)) = 0 →
      (l.foldl (autoBlockStep flags now) acc).1.countP (fun b => decide (b.ip = ip)) = 1 ∧
      (⟨ip, now, blockReasonText flags ip⟩ : BlockedEntry) ∈
        (l.foldl (autoBlockStep flags now) acc).1 := by
  intro l
  induction l with
  | nil => intro acc ip _ h; simp at h
  | cons c cs ih =>
    intro acc ip hnd hip h0
    rw [List.foldl_cons]
    rcases List.mem_cons.mp hip with hip | hip
    · subst hip
      have hnotin : isIPBlockedB acc.1 ip = false := by
        rw [← Bool.not_eq_true]
        intro hc
        obtain ⟨b, hb, hbe⟩ := List.any_eq_true.mp hc
        have hpos : 0 < acc.1.countP (fun b => decide (b.ip = ip)) :=
          List.countP_pos_iff.mpr ⟨b, hb, hbe⟩
        omega
      have hstep : autoBlockStep flags now acc ip =
          (acc.1 ++ [⟨ip, now, blockReasonText flags ip⟩], acc.2 + 1) := by
        unfold autoBlockStep
        rw [if_neg (by simp [hnotin])]
      rw [hstep]
      have hcs : ip ∉ cs := (List.nodup_cons.mp hnd).1
      constructor
      · rw [autoBlock_foldl_countP_of_not_mem flags now cs _ ip hcs,
          List.countP_append, h0]
        simp
      · obtain ⟨tail, h1, _⟩ := autoBlock_foldl_append flags now cs
          (acc.1 ++ [⟨ip, now, blockReasonText flags ip⟩], acc.2 + 1)
        rw [h1]
        exact List.mem_append_left tail (List.mem_append_right acc.1 (by simp))
    · have hcne : c ≠ ip := by
        intro h
        exact (List.nodup_cons.mp hnd).1 (h ▸ hip)
      have h0' : (autoBlockStep flags now acc c).1.countP
          (fun b => decide (b.ip = ip)) = 0 := by
        unfold autoBlockStep
        by_cases hc : isIPBlockedB acc.1 c = true
        · rw [if_pos hc]; exact h0
        · rw [if_neg hc]
          simp only [List.countP_append, h0]
          simp [hcne]
      exact ih _ ip (List.nodup_cons.mp hnd).2 hip h0'

/-- A run over identities that are all already blocked is a no-op. -/
theorem autoBlock_foldl_noop (flags : List Flag) (now : Int) :
    ∀ (l : List String) (acc : List BlockedEntry × Nat),
      (∀ j ∈ l, isIPBlockedB acc.1 j = true) →
      l.foldl (autoBlockStep flags now) acc = acc := by
  intro l
  induction l with
  | nil => intro acc _; rfl
  | cons c cs ih =>
    intro acc h
    rw [List.foldl_cons]
    have hstep : autoBlockStep flags now acc c = acc := by
      unfold autoBlockStep
      rw [if_pos (h c (List.mem_cons_self c cs))]
    rw [hstep]
    exact ih acc (fun j hj => h j (List.mem_cons_of_mem c hj))

/-- Claim C3: the escalator never blocks an identity with fewer than 3
distinct active reasons; an identity with at least 3 distinct active
reasons and no existing block row is inserted exactly once, with the
reason text joining the display labels of all its active flag reasons
(`blockReasonText`); and an immediate second escalation run blocks nobody
(its result is the same list with `blocked_count = 0`).  The `Nodup`
hypothesis is the `unique_together ['ip_address', 'reason']` database
constraint. -/
theorem C3_escalator (flags : List Flag) (blocked : List BlockedEntry) (now now' : Int)
    (hNodup : (flags.map (fun f => (f.ip, f.reason))).Nodup) :
    (∀ ip, distinctActiveReasons flags ip < 3 →
      (autoBlockSuspicious flags blocked now).1.countP (fun b => decide (b.ip = ip)) =
        blocked.countP (fun b => decide (b.ip = ip))) ∧
    (∀ ip, 3 ≤ distinctActiveReasons flags ip →
      blocked.countP (fun b => decide (b.ip = ip)) = 0 →
      (autoBlockSuspicious flags blocked now).1.countP (fun b => decide (b.ip = ip)) = 1 ∧
      (⟨ip, now, blockReasonText flags ip⟩ : BlockedEntry) ∈
        (autoBlockSuspicious flags blocked now).1) ∧
    (autoBlockSuspicious flags (autoBlockSuspicious flags blocked now).1 now' =
      ((autoBlockSuspicious flags blocked now).1, 0)) := by
  refine ⟨?_, ?_, ?_⟩
  · intro ip hlt
    have hcnt : activeFlagCount flags ip < 3 := by
      rw [activeFlagCount_eq_distinct flags ip hNodup]; exact hlt
    have hnm : ip ∉ severeIPs flags := by
      intro hm
      have := (mem_severeIPs flags ip).mp hm
      omega
    exact autoBlock_foldl_countP_of_not_mem flags now _ _ ip hnm
  · intro ip hge h0
    have hm : ip ∈ severeIPs flags := by
      refine (mem_severeIPs flags ip).mpr ?_
      rw [activeFlagCount_eq_distinct flags ip hNodup]; exact hge
    have hnd : (severeIPs flags).Nodup :=
      (List.nodup_dedup _).filter _
    exact autoBlock_foldl_once flags now _ _ ip hnd hm h0
  · unfold autoBlockSuspicious
    refine autoBlock_foldl_noop flags now' _ _ ?_
    intro j hj
    obtain ⟨b, hb, hbe⟩ := autoBlock_foldl_present flags now (severeIPs flags)
      (blocked, 0) j hj
    exact List.any_eq_true.mpr ⟨b, hb, by simpa using hbe⟩

/-- Closed instance of `C3_escalator`: an identity with three distinct
active reasons and an empty block list is blocked exactly once. -/
theorem C3_escalator_witness :
    (autoBlockSuspicious escalatorExampleFlags [] 1).1.countP
        (fun b => decide (b.ip = "3.3.3.3")) = 1 ∧
    (⟨"3.3.3.3", 1, blockReasonText escalatorExampleFlags "3.3.3.3"⟩ : BlockedEntry) ∈
      (autoBlockSuspicious escalatorExampleFlags [] 1).1 :=
  (C3_escalator escalatorExampleFlags [] 1 2 (by decide)).2.1 "3.3.3.3"
    (by decide) (by decide)

/-! ### Claim C1 -/

/-- Core invariant of the sliding-window rate limiter.  Starting from a
state where the cache holds exactly the admitted timestamps newer than
`r - w` (with `r` below all remaining request times and above all admitted
ones), every trailing window of the admitted sequence stays within the
limit. -/
theorem rl_fold_bound (limit : Nat) (w : Int) (hw : 0 < w) :
    ∀ (ts : List Int) (stored admitted : List Int) (r : Int),
      ts.Sorted (· ≤ ·) → (∀ t ∈ ts, r ≤ t) →
      stored = admitted.filter (fun t => decide (r - w < t)) →
      (∀ t ∈ admitted, t ≤ r) →
      (∀ T : Int, admitted.countP (inWindow w T) ≤ limit) →
      ∀ T : Int,
        ((ts.foldl (rlStep limit w) (stored, admitted)).2.countP (inWindow w T)) ≤ limit := by
  intro ts
  induction ts with
  | nil =>
    intro stored admitted r _ _ _ _ hcnt T
    exact hcnt T
  | cons now ts' ih =>
    intro stored admitted r hsort hr hst hadm hcnt T
    rw [List.foldl_cons]
    have hrnow : r ≤ now := hr now (List.mem_cons_self _ _)
    have hpruned : pruneWindow stored now w =
        admitted.filter (fun t => decide (now - w < t)) := by
      rw [hst]
      unfold pruneWindow
      rw [List.filter_filter]
      refine List.filter_congr ?_
      intro t _
      by_cases h1 : now - w < t
      · have h2 : r - w < t := by omega
        simp [h1, h2]
      · simp [h1]
    by_cases hdec : limit ≤ (pruneWindow stored now w).length
    · have hstep : rlStep limit w (stored, admitted) now = (stored, admitted) := by
        simp only [rlStep, checkRateLimit]
        rw [if_pos hdec]
        simp
      rw [hstep]
      exact ih stored admitted r hsort.of_cons
        (fun t ht => hr t (List.mem_cons_of_mem now ht)) hst hadm hcnt T
    · have hstep : rlStep limit w (stored, admitted) now =
          (pruneWindow stored now w ++ [now], admitted ++ [now]) := by
        simp only [rlStep, checkRateLimit]
        rw [if_neg hdec]
        simp
      rw [hstep]
      have hlen : (pruneWindow stored now w).length < limit := by omega
      have hstored' : pruneWindow stored now w ++ [now] =
          (admitted ++ [now]).filter (fun t => decide (now - w < t)) := by
        rw [List.filter_append, hpruned]
        have hfe : List.filter (fun t => decide (now - w < t)) [now] = [now] := by
          simp
          omega
        rw [hfe]
      have hadm' : ∀ t ∈ admitted ++ [now], t ≤ now := by
        intro t ht
        rcases List.mem_append.mp ht with ht | ht
        · exact le_trans (hadm t ht) hrnow
        · simp at ht
          omega
      have hcnt' : ∀ T' : Int, (admitted ++ [now]).countP (inWindow w T') ≤ limit := by
        intro T'
        rw [List.countP_append, List.countP_singleton]
        by_cases hin : inWindow w T' now = true
        · have hT : T' - w < now ∧ now ≤ T' := by
            have := (Bool.and_eq_true _ _).mp hin
            exact ⟨by simpa using this.1, by simpa using this.2⟩
          have hmono : admitted.countP (inWindow w T') ≤
              admitted.countP (fun t => decide (now - w < t)) := by
            refine List.countP_mono_left ?_
            intro x hx hxin
            have hxT : T' - w < x ∧ x ≤ T' := by
              have := (Bool.and_eq_true _ _).mp hxin
              exact ⟨by simpa using this.1, by simpa using this.2⟩
            simp only [decide_eq_true_eq]
            omega
          have hfl : admitted.countP (fun t => decide (now - w < t)) =
              (pruneWindow stored now w).length := by
            rw [hpruned, List.countP_eq_length_filter]
          rw [hin, if_pos rfl]
          omega
        · rw [if_neg hin]
          have := hcnt T'
          omega
      exact ih _ _ now hsort.of_cons (List.rel_of_sorted_cons hsort)
        hstored' hadm' hcnt' T

/-- One admitted request when every cached timestamp survives pruning and
the window has room. -/
theorem rlStep_keepAll (stored admitted : List Int) (now : Int) (limit : Nat) (w : Int)
    (hkeep : ∀ t ∈ stored, now - w < t) (hlen : stored.length < limit) :
    rlStep limit w (stored, admitted) now = (stored ++ [now], admitted ++ [now]) := by
  have hfe : pruneWindow stored now w = stored := by
    unfold pruneWindow
    refine List.filter_eq_self.mpr ?_
    intro a ha
    simpa using hkeep a ha
  have hnle : ¬ (limit ≤ stored.length) := by omega
  simp only [rlStep, checkRateLimit, hfe]
  rw [if_neg hnle]
  simp

/-- One rejected request when every cached timestamp survives pruning and
the window is full. -/
theorem checkRateLimit_full (stored : List Int) (now : Int) (limit : Nat) (w : Int)
    (hkeep : ∀ t ∈ stored, now - w < t) (hlen : limit ≤ stored.length) :
    checkRateLimit stored now limit w = (false, stored) := by
  have hfe : pruneWindow stored now w = stored := by
    unfold pruneWindow
    refine List.filter_eq_self.mpr ?_
    intro a ha
    simpa using hkeep a ha
  simp only [checkRateLimit, hfe]
  rw [if_pos hlen]

/-- Claim C1: (general invariant) for any key, after any time-ordered
sequence of rate-limit checks, the number of admitted requests in any
trailing `window_size`-second interval is at most `limit`; (scenario) with
`limit = 5`, `window = 60`, five requests within 10 seconds are all
admitted, a sixth request within 60 seconds of the first is rejected and
leaves the state unchanged, and a request more than 60 seconds after the
first is admitted again. -/
theorem C1_rate_limit_invariant :
    (∀ (limit : Nat) (w : Int) (ts : List Int), 0 < w → ts.Sorted (· ≤ ·) →
      ∀ T : Int, ((runRateLimiter limit w ts).2.countP (inWindow w T)) ≤ limit) ∧
    (∀ t1 t2 t3 t4 t5 t6 t7 : Int,
      t1 ≤ t2 → t2 ≤ t3 → t3 ≤ t4 → t4 ≤ t5 → t5 ≤ t1 + 10 →
      t5 ≤ t6 → t6 < t1 + 60 → t1 + 60 < t7 →
      runRateLimiter 5 60 [t1, t2, t3, t4, t5] =
        ([t1, t2, t3, t4, t5], [t1, t2, t3, t4, t5]) ∧
      (checkRateLimit [t1, t2, t3, t4, t5] t6 5 60).1 = false ∧
      rlStep 5 60 ([t1, t2, t3, t4, t5], [t1, t2, t3, t4, t5]) t6 =
        ([t1, t2, t3, t4, t5], [t1, t2, t3, t4, t5]) ∧
      (checkRateLimit [t1, t2, t3, t4, t5] t7 5 60).1 = true) := by
  constructor
  · intro limit w ts hw hsort T
    cases ts with
    | nil => simp [runRateLimiter]
    | cons a l =>
      refine rl_fold_bound limit w hw (a :: l) [] [] a hsort ?_ rfl (by simp) (by simp) T
      intro t ht
      rcases List.mem_cons.mp ht with ht | ht
      · omega
      · exact List.rel_of_sorted_cons hsort t ht
  · intro t1 t2 t3 t4 t5 t6 t7 h12 h23 h34 h45 h15 h56 h6 h7
    have e1 : rlStep 5 60 ([], []) t1 = ([t1], [t1]) := by
      have := rlStep_keepAll [] [] t1 5 60 (by simp) (by simp)
      simpa using this
    have e2 : rlStep 5 60 ([t1], [t1]) t2 = ([t1, t2], [t1, t2]) := by
      have := rlStep_keepAll [t1] [t1] t2 5 60 (by simp; omega) (by simp)
      simpa using this
    have e3 : rlStep 5 60 ([t1, t2], [t1, t2]) t3 = ([t1, t2, t3], [t1, t2, t3]) := by
      have := rlStep_keepAll [t1, t2] [t1, t2] t3 5 60 ?_ (by simp)
      · simpa using this
      · intro t ht
        simp at ht
        rcases ht with h | h <;> omega
    have e4 : rlStep 5 60 ([t1, t2, t3], [t1, t2, t3]) t4 =
        ([t1, t2, t3, t4], [t1, t2, t3, t4]) := by
      have := rlStep_keepAll [t1, t2, t3] [t1, t2, t3] t4 5 60 ?_ (by simp)
      · simpa using this
      · intro t ht
        simp at ht
        rcases ht with h | h | h <;> omega
    have e5 : rlStep 5 60 ([t1, t2, t3, t4], [t1, t2, t3, t4]) t5 =
        ([t1, t2, t3, t4, t5], [t1, t2, t3, t4, t5]) := by
      have := rlStep_keepAll [t1, t2, t3, t4] [t1, t2, t3, t4] t5 5 60 ?_ (by simp)
      · simpa using this
      · intro t ht
        simp at ht
        rcases ht with h | h | h | h <;> omega
    have hrun : runRateLimiter 5 60 [t1, t2, t3, t4, t5] =
        ([t1, t2, t3, t4, t5], [t1, t2, t3, t4, t5]) := by
      unfold runRateLimiter
      rw [List.foldl_cons, e1, List.foldl_cons, e2, List.foldl_cons, e3,
        List.foldl_cons, e4, List.foldl_cons, e5, List.foldl_nil]
    have hkeep6 : ∀ t ∈ [t1, t2, t3, t4, t5], t6 - 60 < t := by
      intro t ht
      simp at ht
      rcases ht with h | h | h | h | h <;> omega
    have hcheck6 : checkRateLimit [t1, t2, t3, t4, t5] t6 5 60 =
        (false, [t1, t2, t3, t4, t5]) :=
      checkRateLimit_full _ t6 5 60 hkeep6 (by simp)
    have hstep6 : rlStep 5 60 ([t1, t2, t3, t4, t5], [t1, t2, t3, t4, t5]) t6 =
        ([t1, t2, t3, t4, t5], [t1, t2, t3, t4, t5]) := by
      simp only [rlStep, hcheck6]
      simp
    have hlen7 : (pruneWindow [t1, t2, t3, t4, t5] t7 60).length < 5 := by
      unfold pruneWindow
      rw [List.filter_cons, if_neg (by simp; omega)]
      have := List.length_filter_le (fun t => decide (t7 - 60 < t)) [t2, t3, t4, t5]
      simp at this ⊢
      omega
    have hcheck7 : (checkRateLimit [t1, t2, t3, t4, t5] t7 5 60).1 = true := by
      have hnle : ¬ (5 ≤ (pruneWindow [t1, t2, t3, t4, t5] t7 60).length) := by omega
      simp only [checkRateLimit]
      rw [if_neg hnle]
    exact ⟨hrun, by rw [hcheck6], hstep6, hcheck7⟩

/-- Closed instance of `C1_rate_limit_invariant`: the trailing-window bound
for three requests under limit 5, and the full admit/reject/readmit
scenario at concrete times 0..4, 5, 61. -/
theorem C1_rate_limit_invariant_witness :
    ((runRateLimiter 5 60 [0, 1, 2]).2.countP (inWindow 60 10) ≤ 5) ∧
    (runRateLimiter 5 60 [0, 1, 2, 3, 4] = ([0, 1, 2, 3, 4], [0, 1, 2, 3, 4]) ∧
     (checkRateLimit [0, 1, 2, 3, 4] 5 5 60).1 = false ∧
     rlStep 5 60 ([0, 1, 2, 3, 4], [0, 1, 2, 3, 4]) 5 = ([0, 1, 2, 3, 4], [0, 1, 2, 3, 4]) ∧
     (checkRateLimit [0, 1, 2, 3, 4] 61 5 60).1 = true) :=
  ⟨C1_rate_limit_invariant.1 5 60 [0, 1, 2] (by decide) (by decide) 10,
   C1_rate_limit_invariant.2 0 1 2 3 4 5 61 (by decide) (by decide) (by decide)
     (by decide) (by decide) (by decide) (by decide) (by decide)⟩

end IPTrack
